import Mathlib

/-!
Verification of the anime-ID mapping inspection scripts.

The development embeds, as pure Lean functions, the two loops of
`analyze_mappings.py` (lookup of a MAL ID in a JSON mapping, and the
IMDb-ID duplicate-detection pass) together with a small semantic model
of the SQLite-inspection scripts (`inspect_db.py`, `inspect_aot.py`,
`inspect_duplicates.py`, `inspect_episodes.py`).
-/

/-- JSON values as they occur in the mappings file: a field is absent
(`jnull`, the result of `dict.get` on a missing key), an integer, a
string, or a list of values. -/
inductive JVal where
  | jnull : JVal
  | jint (n : Int) : JVal
  | jstr (s : String) : JVal
  | jlist (xs : List JVal) : JVal

mutual

/-- Structural equality of JSON values, mirroring Python `==` on the
shapes the scripts compare. -/
def JVal.beq : JVal → JVal → Bool
  | .jnull, .jnull => true
  | .jint a, .jint b => a == b
  | .jstr a, .jstr b => a == b
  | .jlist xs, .jlist ys => JVal.beqList xs ys
  | _, _ => false

/-- Elementwise equality of JSON value lists. -/
def JVal.beqList : List JVal → List JVal → Bool
  | [], [] => true
  | x :: xs, y :: ys => JVal.beq x y && JVal.beqList xs ys
  | _, _ => false

end

theorem JVal.beq_iff : ∀ a b, JVal.beq a b = true ↔ a = b := by
  refine JVal.beq.induct
    (fun a b => JVal.beq a b = true ↔ a = b)
    (fun xs ys => JVal.beqList xs ys = true ↔ xs = ys)
    ?_ ?_ ?_ ?_ ?_ ?_ ?_ ?_
  · simp [JVal.beq]
  · intro a b; simp [JVal.beq]
  · intro a b; simp [JVal.beq]
  · intro xs ys ih; simp [JVal.beq, ih]
  · intro t x h1 h2 h3 h4
    cases t <;> cases x <;> simp_all [JVal.beq]
  · simp [JVal.beqList]
  · intro x xs y ys ih1 ih2; simp [JVal.beqList, ih1, ih2]
  · intro t x h1 h2
    cases t <;> cases x
    · exact (h1 rfl rfl).elim
    · simp [JVal.beqList]
    · simp [JVal.beqList]
    · exact (h2 _ _ _ _ rfl rfl).elim

instance : BEq JVal := ⟨JVal.beq⟩

instance : LawfulBEq JVal where
  eq_of_beq h := (JVal.beq_iff _ _).mp h
  rfl := (JVal.beq_iff _ _).mpr rfl

instance : DecidableEq JVal :=
  fun a b => decidable_of_iff (JVal.beq a b = true) (JVal.beq_iff a b)

/-- Python truthiness of a JSON value: `None`, `0`, `""` and `[]` are
falsy, everything else is truthy.  This is the test performed by
`if mal_ids:` and `if not imdb_ids:` in `analyze_mappings.py`. -/
def truthy : JVal → Bool
  | .jnull => false
  | .jint n => n != 0
  | .jstr s => s != ""
  | .jlist xs => !xs.isEmpty

/-- One record of the JSON mapping, keeping the two fields the scripts
read (`value.get('mal_id')` and `value.get('imdb_id')`); an absent
field is `jnull`. -/
structure Record where
  mal_id : JVal
  imdb_id : JVal
deriving DecidableEq

/-- The lookup loop of `analyze_mappings.py` (lines 11-22): scan the
mapping in iteration order; for each record, if `mal_ids` is truthy,
test the list branch with membership or the scalar branch with
equality, and `break` (return) at the first match.  A list that does
not contain the target falls through to the next record. -/
def lookupMal (t : Int) : List (String × Record) → Option (String × Record)
  | [] => Option.none
  | (key, value) :: rest =>
    let mal_ids := value.mal_id
    if truthy mal_ids then
      match mal_ids with
      | .jlist xs =>
        if xs.contains (.jint t) then some (key, value) else lookupMal t rest
      | w =>
        if w == .jint t then some (key, value) else lookupMal t rest
    else lookupMal t rest

/-- The per-record match test implicit in the lookup loop: a truthy
`mal_id` that, as a list, contains the target or, as a scalar, equals
it. -/
def matchesMal (t : Int) (v : JVal) : Bool :=
  truthy v &&
    (match v with
     | .jlist xs => xs.contains (.jint t)
     | w => w == .jint t)

/-- Plain containment of the target in a `mal_id` field, with no
truthiness guard: a scalar equal to the target, or a list containing
it.  This is the notion "the target occurs in the field" used by the
specification's fixture test. -/
def fieldContains (t : Int) (v : JVal) : Bool :=
  match v with
  | .jint n => n == t
  | .jlist xs => xs.contains (.jint t)
  | _ => false

/-- Modelled from the spec: the lookup with the scalar branch replaced
by "normalize the scalar to a one-element sequence, then test
membership", keeping everything else (truthiness guard, list branch,
first-match-wins) as in the code. -/
def lookupMalNormalized (t : Int) : List (String × Record) → Option (String × Record)
  | [] => Option.none
  | (key, value) :: rest =>
    let mal_ids := value.mal_id
    if truthy mal_ids then
      match mal_ids with
      | .jlist xs =>
        if xs.contains (.jint t) then some (key, value)
        else lookupMalNormalized t rest
      | w =>
        if [w].contains (.jint t) then some (key, value)
        else lookupMalNormalized t rest
    else lookupMalNormalized t rest

/-- The values an `imdb_id` field contributes to the duplicate loop of
`analyze_mappings.py` (lines 31-43): a falsy field is skipped
(`if not imdb_ids: continue`), a truthy non-list is wrapped in a
singleton list, and a truthy list is iterated element by element. -/
def normIds (v : JVal) : List JVal :=
  if truthy v then
    match v with
    | .jlist xs => xs
    | w => [w]
  else []

/-- State of the duplicate-detection loop: the insertion-ordered
`imdb_map` (value → key of first record seen with it) and the
`duplicates` counter. -/
structure DupState where
  imdb_map : List (JVal × String)
  duplicates : Nat
deriving DecidableEq

/-- One step of the inner loop `for imdb in imdb_ids`: a value already
present as a key of `imdb_map` increments `duplicates`, a new value is
inserted (at the end, as Python dict insertion does) mapping to the
current record's key. -/
def processOne (st : DupState) (key : String) (v : JVal) : DupState :=
  if (st.imdb_map.map Prod.fst).contains v then
    { st with duplicates := st.duplicates + 1 }
  else
    { st with imdb_map := st.imdb_map ++ [(v, key)] }

/-- Processing of one record of the outer loop: feed every value of
the normalized `imdb_id` field to `processOne` in order. -/
def processRecord (st : DupState) (key : String) (value : Record) : DupState :=
  (normIds value.imdb_id).foldl (fun s v => processOne s key v) st

/-- The whole duplicate-detection pass of `analyze_mappings.py`:
fold `processRecord` over the mapping in iteration order, starting
from the empty map and a zero counter. -/
def dupLoop (data : List (String × Record)) : DupState :=
  data.foldl (fun st kv => processRecord st kv.1 kv.2) ⟨[], 0⟩

/-- The flattened stream of (record key, imdb value) pairs the
duplicate loop processes, in processing order. -/
def stream (data : List (String × Record)) : List (String × JVal) :=
  data.flatMap (fun kv => (normIds kv.2.imdb_id).map (fun v => (kv.1, v)))

/-- All imdb values processed by the duplicate loop, in order. -/
def allVals (data : List (String × Record)) : List JVal :=
  (stream data).map Prod.snd

/-- Total number of imdb values processed by the duplicate loop: each
record contributes the length of its normalized `imdb_id` field. -/
def totalProcessed (data : List (String × Record)) : Nat :=
  (data.map (fun kv => (normIds kv.2.imdb_id).length)).sum

/-- Run of the duplicate-loop body over an explicit stream of
(key, value) pairs, from an arbitrary starting state. -/
def runStream (st : DupState) : List (String × JVal) → DupState
  | [] => st
  | (k, v) :: rest => runStream (processOne st k v) rest

/-- First-seen association extracted from a stream: a value already in
`seen` is skipped, a new value is paired with the key it first arrives
with. -/
def firstSeen (seen : List JVal) : List (String × JVal) → List (JVal × String)
  | [] => []
  | (k, v) :: rest =>
    if seen.contains v then firstSeen seen rest
    else (v, k) :: firstSeen (seen ++ [v]) rest

/-- Modelled from the spec: the number of value occurrences that are
not first occurrences, i.e., each element of the list that already
occurred earlier (or is in the initial `seen` set) counts one. -/
def prevOcc (seen : List JVal) : List JVal → Nat
  | [] => 0
  | v :: rest =>
    if seen.contains v then 1 + prevOcc seen rest
    else prevOcc (seen ++ [v]) rest

/-- Lookup of a value among the keys of the insertion-ordered map. -/
def assocFind (m : List (JVal × String)) (v : JVal) : Option String :=
  (m.find? (fun p => p.1 == v)).map Prod.snd

/-- One row of `sqlite_master`, keeping the `type` and `name` columns
the inspection query reads. -/
structure MasterEntry where
  type : String
  name : String
deriving DecidableEq

/-- One table of the SQLite database: its name, the column-description
rows `PRAGMA table_info` reports, and its data rows in table order. -/
structure DbTable where
  name : String
  cols : List String
  rows : List (List String)
deriving DecidableEq

/-- A SQLite database: the `sqlite_master` catalog plus the tables
themselves. -/
structure Db where
  master : List MasterEntry
  tables : List DbTable
deriving DecidableEq

/-- The table of a given name, if present. -/
def Db.findTable (db : Db) (t : String) : Option DbTable :=
  db.tables.find? (fun tb => tb.name == t)

/-- Result of `SELECT name FROM sqlite_master WHERE type='table'`:
the names of the catalog entries of type `table`, in catalog order. -/
def masterTableNames (db : Db) : List String :=
  (db.master.filter (fun e => e.type == "table")).map (fun e => e.name)

/-- Result of `PRAGMA table_info(t)`: the column descriptions of the
table, or no rows when the table is absent (the pragma raises no
error). -/
def tableInfo (db : Db) (t : String) : List String :=
  match db.findTable t with
  | some tb => tb.cols
  | none => []

/-- Rows of a table, or none when the table is absent. -/
def rowsOf (db : Db) (t : String) : List (List String) :=
  match db.findTable t with
  | some tb => tb.rows
  | none => []

/-- Result of `SELECT * FROM t LIMIT n`: the first `n` rows in table
order, or the `sqlite3.OperationalError` raised on a missing table. -/
def selectAllLimit (db : Db) (t : String) (n : Nat) : Except String (List (List String)) :=
  match db.findTable t with
  | some tb => Except.ok (tb.rows.take n)
  | none => Except.error ("no such table: " ++ t)

/-- Result of a filtering `SELECT` over one table: the rows satisfying
the `WHERE` predicate, or the error raised on a missing table. -/
def selectWhere (db : Db) (t : String) (p : List String → Bool) :
    Except String (List (List String)) :=
  match db.findTable t with
  | some tb => Except.ok (tb.rows.filter p)
  | none => Except.error ("no such table: " ++ t)

/-- One line printed by `inspect_db.py`. -/
inductive DbEv where
  | tables (names : List String) : DbEv
  | schemaHeader (t : String) : DbEv
  | col (c : String) : DbEv
  | rowsHeader (t : String) : DbEv
  | row (r : List String) : DbEv
deriving DecidableEq

/-- The per-table body of `inspect_db.py`: for each enumerated table,
print its schema header and column rows, then its rows header and the
result of `SELECT * FROM t LIMIT 5`; an `OperationalError` aborts the
remainder of the run. -/
def inspectTables (db : Db) : List String → Except String (List DbEv)
  | [] => Except.ok []
  | t :: rest => do
    let rows ← selectAllLimit db t 5
    let tail ← inspectTables db rest
    Except.ok (DbEv.schemaHeader t :: (tableInfo db t).map DbEv.col ++
      DbEv.rowsHeader t :: rows.map DbEv.row ++ tail)

/-- The whole of `inspect_db.py`: enumerate the `sqlite_master` table
names, print them, then run the per-table body. -/
def inspect_db (db : Db) : Except String (List DbEv) := do
  let names := masterTableNames db
  let tail ← inspectTables db names
  Except.ok (DbEv.tables names :: tail)

/-- Modelled from the spec: the output the schema-introspection
contract calls for: the enumeration of exactly the `sqlite_master`
entries of type `table`, and for each such table its column
definitions followed by its first 5 rows in table order. -/
def specDbOutput (db : Db) : List DbEv :=
  DbEv.tables (masterTableNames db) ::
    (masterTableNames db).flatMap (fun t =>
      DbEv.schemaHeader t :: (tableInfo db t).map DbEv.col ++
        DbEv.rowsHeader t :: ((rowsOf db t).take 5).map DbEv.row)

/-- The query of `inspect_aot.py`, with its `WHERE mal_title LIKE`
filter abstracted as a row predicate: rows of the `anime` table
passing the filter, or the error raised when `anime` is absent. -/
def inspect_aot (db : Db) (p : List String → Bool) : Except String (List (List String)) :=
  selectWhere db "anime" p

/-- The top of `analyze_mappings.py`: `open` plus `json.load` may fail
(missing file or malformed JSON), and only on success does the script
compute the lookup result and the duplicate statistics. -/
def analyze_mappings (loaded : Except String (List (String × Record))) (t : Int) :
    Except String (Option (String × Record) × DupState) := do
  let data ← loaded
  Except.ok (lookupMal t data, dupLoop data)

/-- The two printed phases of `analyze_mappings.py` on loaded data:
the lookup result for the target MAL ID, then the duplicate
statistics. -/
def runAnalyze (t : Int) (data : List (String × Record)) :
    Option (String × Record) × DupState :=
  (lookupMal t data, dupLoop data)

/-- An SQL statement is read-only when its text starts with `SELECT`
or `PRAGMA` (checked on the underlying character list). -/
def isReadOnlyStmt (s : String) : Bool :=
  "SELECT".data.isPrefixOf s.data || "PRAGMA".data.isPrefixOf s.data

/-- The fixed catalog query of `inspect_db.py`. -/
def masterTablesSql : String :=
  "SELECT name FROM sqlite_master WHERE type=\x27table\x27;"

/-- The schema query `inspect_db.py` issues for a table name. -/
def tableInfoSql (t : String) : String :=
  "PRAGMA table_info(" ++ t ++ ")"

/-- The sample-rows query `inspect_db.py` issues for a table name. -/
def limit5Sql (t : String) : String :=
  "SELECT * FROM " ++ t ++ " LIMIT 5"

/-- Every SQL statement a run of `inspect_db.py` issues, given the
table names the catalog query returned. -/
def inspect_db_stmts (tables : List String) : List String :=
  masterTablesSql :: tables.flatMap (fun t => [tableInfoSql t, limit5Sql t])

/-- The single statement `inspect_aot.py` issues. -/
def inspect_aot_stmts : List String :=
  ["SELECT mal_id, mal_title, thetvdb_season, thetvdb_part, anime_media_episodes FROM anime WHERE mal_title LIKE \x27%Shingeki no Kyojin%\x27"]

/-- The detail query `inspect_duplicates.py` issues for one duplicated
IMDb ID. -/
def dupDetailSql (v : String) : String :=
  "SELECT mal_id, mal_title, thetvdb_season, anime_media_episodes FROM anime WHERE imdb_id = \x27" ++ v ++ "\x27"

/-- Every SQL statement a run of `inspect_duplicates.py` issues, given
the IMDb IDs its first query returned. -/
def inspect_duplicates_stmts (dups : List String) : List String :=
  "SELECT imdb_id, COUNT(*) c FROM anime WHERE imdb_id IS NOT NULL GROUP BY imdb_id HAVING c > 1 LIMIT 5" ::
    dups.map dupDetailSql

/-- The two fixed statements `inspect_episodes.py` issues. -/
def inspect_episodes_stmts : List String :=
  ["SELECT mal_id, mal_title, thetvdb_season, thetvdb_part, anime_media_episodes, global_media_episodes FROM anime WHERE mal_title LIKE \x27Shingeki no Kyojin Season 3%\x27",
   "SELECT mal_id, mal_title, thetvdb_season, thetvdb_part, anime_media_episodes, global_media_episodes FROM anime WHERE mal_title = \x27One Piece\x27"]

/-- Index of the first record (in iteration order) whose normalized
`imdb_id` field contains the value. -/
def firstRecIdx (data : List (String × Record)) (v : JVal) : Option Nat :=
  data.findIdx? (fun kv => (normIds kv.2.imdb_id).contains v)

/-- Modelled from the spec: the number of imdb value occurrences that
lie in a record strictly later than the value's first-seen record,
the quantity the duplicate-count claim describes. -/
def laterRecordOccs (data : List (String × Record)) : Nat :=
  (data.enum.map (fun p =>
    ((normIds p.2.2.imdb_id).filter
      (fun v => firstRecIdx data v != some p.1)).length)).sum

/-- Modelled from the spec: the number of entries whose `imdb_id`
field is non-null. -/
def countNonNullImdb (data : List (String × Record)) : Nat :=
  (data.filter (fun kv => !(kv.2.imdb_id == JVal.jnull))).length

/-- Two records whose `mal_id` field holds the integer 0: the target 0
occurs in both, yet the truthiness guard skips them. -/
def dC1 : List (String × Record) :=
  [("a", ⟨.jint 0, .jnull⟩), ("b", ⟨.jint 0, .jnull⟩)]

/-- One record carrying two distinct IMDb IDs in a list. -/
def dC4 : List (String × Record) :=
  [("k", ⟨.jnull, .jlist [.jstr "a", .jstr "b"]⟩)]

/-- One record repeating the same IMDb ID twice within its own list. -/
def dC5 : List (String × Record) :=
  [("k", ⟨.jnull, .jlist [.jstr "a", .jstr "a"]⟩)]

/-- A record both of whose identifier fields are present but falsy. -/
def rFalsy : Record := ⟨.jint 0, .jstr ""⟩

/-- A small well-formed database: one data table plus an index entry
in the catalog, with more than 5 rows in the table. -/
def dbW : Db :=
  ⟨[⟨"table", "anime"⟩, ⟨"index", "anime_idx"⟩],
   [⟨"anime", ["0|mal_id|INTEGER"],
     [["1"], ["2"], ["3"], ["4"], ["5"], ["6"]]⟩]⟩

example : lookupMal 38524
    [("a", ⟨.jint 1, .jnull⟩), ("b", ⟨.jlist [.jint 38524], .jnull⟩),
     ("c", ⟨.jint 38524, .jnull⟩)]
    = some ("b", ⟨.jlist [.jint 38524], .jnull⟩) := by decide

example : lookupMal 0 [("a", ⟨.jint 0, .jnull⟩), ("b", ⟨.jint 0, .jnull⟩)]
    = Option.none := by decide

example : (dupLoop [("k", ⟨.jnull, .jlist [.jstr "a", .jstr "a"]⟩)]).duplicates
    = 1 := by decide

example : (dupLoop [("k", ⟨.jnull, .jlist [.jstr "a", .jstr "b"]⟩),
                    ("m", ⟨.jnull, .jstr "a"⟩)]).imdb_map
    = [(.jstr "a", "k"), (.jstr "b", "k")] := by decide

lemma lookupMal_cons (t : Int) (k : String) (v : Record)
    (rest : List (String × Record)) :
    lookupMal t ((k, v) :: rest) =
      if matchesMal t v.mal_id then some (k, v) else lookupMal t rest := by
  by_cases ht : truthy v.mal_id
  · cases hm : v.mal_id <;>
      simp [lookupMal, matchesMal, hm, ht, hm ▸ ht]
  · cases hm : v.mal_id <;>
      simp [lookupMal, matchesMal, hm, ht, hm ▸ ht]

lemma singleton_contains (w x : JVal) : [w].contains x = (w == x) := by
  by_cases h : w = x
  · subst h; simp
  · have h2 : (x == w) = false := beq_eq_false_iff_ne.mpr (Ne.symm h)
    have h3 : (w == x) = false := beq_eq_false_iff_ne.mpr h
    simp [List.contains_cons, h2, h3]
    exact fun hxw => h hxw.symm

lemma lookupMalNormalized_cons (t : Int) (k : String) (v : Record)
    (rest : List (String × Record)) :
    lookupMalNormalized t ((k, v) :: rest) =
      if matchesMal t v.mal_id then some (k, v)
      else lookupMalNormalized t rest := by
  by_cases ht : truthy v.mal_id
  · cases hm : v.mal_id with
    | jint n =>
      simp only [lookupMalNormalized, matchesMal, hm, ht, hm ▸ ht,
        singleton_contains, if_true, Bool.true_and, beq_iff_eq]
    | jnull =>
      simp [lookupMalNormalized, matchesMal, hm, ht, hm ▸ ht,
        singleton_contains]
    | jstr s =>
      simp [lookupMalNormalized, matchesMal, hm, ht, hm ▸ ht,
        singleton_contains]
    | jlist xs =>
      simp [lookupMalNormalized, matchesMal, hm, ht, hm ▸ ht,
        singleton_contains]
  · cases hm : v.mal_id <;>
      simp [lookupMalNormalized, matchesMal, hm, ht, hm ▸ ht]

lemma lookupMal_eq_none (t : Int) (data : List (String × Record))
    (h : ∀ kv ∈ data, matchesMal t kv.2.mal_id = false) :
    lookupMal t data = Option.none := by
  induction data with
  | nil => rfl
  | cons kv rest ih =>
    obtain ⟨k, v⟩ := kv
    rw [lookupMal_cons, h (k, v) (by simp)]
    exact ih (fun p hp => h p (by simp [hp]))

lemma lookupMal_first_match (t : Int) (pre post : List (String × Record))
    (k : String) (v : Record)
    (hpre : ∀ p ∈ pre, matchesMal t p.2.mal_id = false)
    (hv : matchesMal t v.mal_id = true) :
    lookupMal t (pre ++ (k, v) :: post) = some (k, v) := by
  induction pre with
  | nil => simp [lookupMal_cons, hv]
  | cons q rest ih =>
    obtain ⟨qk, qv⟩ := q
    rw [List.cons_append, lookupMal_cons, hpre (qk, qv) (by simp)]
    simpa using ih (fun p hp => hpre p (by simp [hp]))

lemma lookupMal_some_matches (t : Int) (data : List (String × Record)) :
    ∀ k v, lookupMal t data = some (k, v) → matchesMal t v.mal_id = true := by
  induction data with
  | nil => intro k v h; simp [lookupMal] at h
  | cons kv rest ih =>
    intro k v h
    obtain ⟨pk, pv⟩ := kv
    rw [lookupMal_cons] at h
    by_cases hm : matchesMal t pv.mal_id
    · rw [if_pos hm] at h
      obtain ⟨rfl, rfl⟩ : pk = k ∧ pv = v := by
        simpa using h
      exact hm
    · rw [if_neg hm] at h
      exact ih k v h

lemma runStream_append (l1 l2 : List (String × JVal)) :
    ∀ st, runStream st (l1 ++ l2) = runStream (runStream st l1) l2 := by
  induction l1 with
  | nil => intro st; rfl
  | cons p rest ih =>
    intro st
    obtain ⟨k, v⟩ := p
    simp [runStream, ih]

lemma foldl_processOne_eq_runStream (k : String) (vs : List JVal) :
    ∀ st, vs.foldl (fun s v => processOne s k v) st =
      runStream st (vs.map (fun v => (k, v))) := by
  induction vs with
  | nil => intro st; rfl
  | cons v rest ih => intro st; simp [runStream, ih]

lemma dupLoop_eq_runStream (data : List (String × Record)) :
    dupLoop data = runStream ⟨[], 0⟩ (stream data) := by
  suffices h : ∀ st, data.foldl (fun st kv => processRecord st kv.1 kv.2) st =
      runStream st (stream data) by
    exact h ⟨[], 0⟩
  induction data with
  | nil => intro st; rfl
  | cons kv rest ih =>
    intro st
    simp only [List.foldl_cons, stream, List.flatMap_cons, runStream_append]
    rw [← stream, ← foldl_processOne_eq_runStream]
    exact ih _

lemma runStream_count (l : List (String × JVal)) :
    ∀ st, (runStream st l).duplicates + (runStream st l).imdb_map.length =
      st.duplicates + st.imdb_map.length + l.length := by
  induction l with
  | nil => intro st; simp [runStream]
  | cons p rest ih =>
    intro st
    obtain ⟨k, v⟩ := p
    simp only [runStream]
    rw [ih]
    simp only [processOne]
    by_cases h : (st.imdb_map.map Prod.fst).contains v = true
    · rw [if_pos h]
      dsimp only
      simp only [List.length_cons]
      omega
    · rw [if_neg h]
      dsimp only
      simp only [List.length_cons, List.length_append, List.length_nil]
      omega

lemma runStream_map (l : List (String × JVal)) :
    ∀ st, (runStream st l).imdb_map =
      st.imdb_map ++ firstSeen (st.imdb_map.map Prod.fst) l := by
  induction l with
  | nil => intro st; simp [runStream, firstSeen]
  | cons p rest ih =>
    intro st
    obtain ⟨k, v⟩ := p
    simp only [runStream]
    rw [ih]
    simp only [processOne, firstSeen]
    by_cases h : (st.imdb_map.map Prod.fst).contains v = true
    · rw [if_pos h, if_pos h]
    · rw [if_neg h, if_neg h]
      dsimp only
      simp [List.map_append, List.append_assoc]

lemma runStream_dups (l : List (String × JVal)) :
    ∀ st, (runStream st l).duplicates =
      st.duplicates + prevOcc (st.imdb_map.map Prod.fst) (l.map Prod.snd) := by
  induction l with
  | nil => intro st; simp [runStream, prevOcc]
  | cons p rest ih =>
    intro st
    obtain ⟨k, v⟩ := p
    simp only [runStream, List.map_cons, prevOcc, processOne]
    rw [ih]
    by_cases h : (st.imdb_map.map Prod.fst).contains v = true
    · rw [if_pos h, if_pos h]
      dsimp only
      omega
    · rw [if_neg h, if_neg h]
      dsimp only
      simp [List.map_append]

lemma firstSeen_find (l : List (String × JVal)) :
    ∀ seen v, assocFind (firstSeen seen l) v =
      if seen.contains v then Option.none
      else (l.find? (fun p => p.2 == v)).map Prod.fst := by
  induction l with
  | nil =>
    intro seen v
    by_cases h : seen.contains v = true
    · rw [firstSeen, if_pos h]; rfl
    · rw [firstSeen, if_neg h]; rfl
  | cons p rest ih =>
    intro seen v
    obtain ⟨k, w⟩ := p
    simp only [firstSeen]
    by_cases hw : seen.contains w = true
    · rw [if_pos hw, ih]
      by_cases hv : seen.contains v = true
      · rw [if_pos hv, if_pos hv]
      · rw [if_neg hv, if_neg hv, List.find?_cons]
        have hwv : (w == v) = false := by
          by_contra hc
          simp only [Bool.not_eq_false, beq_iff_eq] at hc
          exact hv (hc ▸ hw)
        simp [hwv]
    · rw [if_neg hw]
      by_cases hvw : w = v
      · subst hvw
        rw [if_neg hw]
        simp [assocFind, List.find?_cons]
      · have h1 : (w == v) = false := beq_eq_false_iff_ne.mpr hvw
        have h2 : (v == w) = false := beq_eq_false_iff_ne.mpr (Ne.symm hvw)
        have hseen : (seen ++ [w]).contains v = seen.contains v := by
          simp [List.contains, List.elem_eq_mem, List.mem_append, Ne.symm hvw]
        rw [show assocFind ((w, k) :: firstSeen (seen ++ [w]) rest) v =
            assocFind (firstSeen (seen ++ [w]) rest) v by
          simp [assocFind, List.find?_cons, h1]]
        rw [ih, hseen]
        by_cases hv : seen.contains v = true
        · rw [if_pos hv, if_pos hv]
        · rw [if_neg hv, if_neg hv, List.find?_cons]
          simp [h1]

lemma find?_beq_self (l : List JVal) (v : JVal) :
    l.contains v = true → l.find? (fun x => x == v) = some v := by
  induction l with
  | nil => intro h; simp [List.contains, List.elem] at h
  | cons x xs ih =>
    intro h
    rw [List.find?_cons]
    by_cases hx : (x == v) = true
    · have hxe : x = v := eq_of_beq hx
      subst hxe
      simp [hx]
    · have hxv : x ≠ v := fun e => hx (by simp [e])
      have hvx : (v == x) = false := beq_eq_false_iff_ne.mpr (Ne.symm hxv)
      rw [List.contains_cons, hvx] at h
      simp only [Bool.false_or] at h
      simp only [hx, Bool.false_eq_true]
      exact ih h

lemma find?_beq_none (l : List JVal) (v : JVal) :
    l.contains v = false → l.find? (fun x => x == v) = Option.none := by
  induction l with
  | nil => intro _; rfl
  | cons x xs ih =>
    intro h
    rw [List.contains_cons] at h
    have h1 : (v == x) = false := by
      cases hvx : (v == x)
      · rfl
      · rw [hvx] at h; simp at h
    have h2 : xs.contains v = false := by
      rw [h1] at h; simpa using h
    have h3 : (x == v) = false := by
      rw [beq_eq_false_iff_ne] at h1 ⊢
      exact Ne.symm h1
    rw [List.find?_cons, h3]
    exact ih h2

lemma stream_find?_eq (data : List (String × Record)) (v : JVal) :
    ((stream data).find? (fun p => p.2 == v)).map Prod.fst =
      (data.find? (fun kv => (normIds kv.2.imdb_id).contains v)).map Prod.fst := by
  induction data with
  | nil => rfl
  | cons kv rest ih =>
    obtain ⟨k, r⟩ := kv
    simp only [stream, List.flatMap_cons]
    rw [List.find?_append, ← stream, List.find?_cons]
    rw [List.find?_map]
    by_cases h : (normIds r.imdb_id).contains v = true
    · rw [h]
      have : (normIds r.imdb_id).find? ((fun p => p.2 == v) ∘ fun w => (k, w)) =
          some v := by
        rw [show ((fun p => p.2 == v) ∘ fun w => (k, w)) = fun w => w == v from rfl]
        exact find?_beq_self _ _ h
      rw [this]
      rfl
    · rw [Bool.not_eq_true] at h
      rw [h]
      have : (normIds r.imdb_id).find? ((fun p => p.2 == v) ∘ fun w => (k, w)) =
          Option.none := by
        rw [show ((fun p => p.2 == v) ∘ fun w => (k, w)) = fun w => w == v from rfl]
        exact find?_beq_none _ _ h
      rw [this]
      simpa using ih

lemma prevOcc_eq_zero (vs : List JVal) :
    ∀ seen, vs.Nodup → (∀ v ∈ vs, seen.contains v = false) →
      prevOcc seen vs = 0 := by
  induction vs with
  | nil => intro seen _ _; rfl
  | cons v rest ih =>
    intro seen hnd hs
    obtain ⟨hv, hrest⟩ := List.nodup_cons.mp hnd
    have h0 : seen.contains v = false := hs v (by simp)
    rw [prevOcc, if_neg (by rw [h0]; simp)]
    refine ih _ hrest ?_
    intro w hw
    have h1 : seen.contains w = false := hs w (by simp [hw])
    have h2 : w ≠ v := fun e => hv (e ▸ hw)
    have h3 : w ∉ seen := by
      simpa [List.contains, List.elem_eq_mem] using h1
    simp [List.contains, List.elem_eq_mem, List.mem_append, h3, h2]

lemma isPrefixOf_append_right (p : List Char) :
    ∀ s t : List Char, p.isPrefixOf s = true → p.isPrefixOf (s ++ t) = true := by
  induction p with
  | nil => intro s t _; simp [List.isPrefixOf]
  | cons a as ih =>
    intro s t h
    cases s with
    | nil => simp [List.isPrefixOf] at h
    | cons b bs =>
      simp only [List.isPrefixOf, List.cons_append, Bool.and_eq_true] at h ⊢
      exact ⟨h.1, ih bs t h.2⟩

lemma isReadOnlyStmt_append (pre suf : String)
    (h : isReadOnlyStmt pre = true) : isReadOnlyStmt (pre ++ suf) = true := by
  unfold isReadOnlyStmt at h ⊢
  rw [String.data_append]
  rw [Bool.or_eq_true] at h ⊢
  rcases h with h1 | h1
  · exact Or.inl (isPrefixOf_append_right _ _ _ h1)
  · exact Or.inr (isPrefixOf_append_right _ _ _ h1)

lemma tableInfoSql_readonly (t : String) : isReadOnlyStmt (tableInfoSql t) = true := by
  unfold tableInfoSql
  exact isReadOnlyStmt_append _ _ (isReadOnlyStmt_append _ _ (by decide))

lemma limit5Sql_readonly (t : String) : isReadOnlyStmt (limit5Sql t) = true := by
  unfold limit5Sql
  exact isReadOnlyStmt_append _ _ (isReadOnlyStmt_append _ _ (by decide))

lemma dupDetailSql_readonly (v : String) : isReadOnlyStmt (dupDetailSql v) = true := by
  unfold dupDetailSql
  exact isReadOnlyStmt_append _ _ (isReadOnlyStmt_append _ _ (by decide))

lemma inspectTables_ok (db : Db) :
    ∀ ts : List String, (∀ t ∈ ts, (db.findTable t).isSome = true) →
      inspectTables db ts = Except.ok (ts.flatMap (fun t =>
        DbEv.schemaHeader t :: (tableInfo db t).map DbEv.col ++
          DbEv.rowsHeader t :: ((rowsOf db t).take 5).map DbEv.row)) := by
  intro ts
  induction ts with
  | nil => intro _; rfl
  | cons t rest ih =>
    intro h
    have ht : (db.findTable t).isSome = true := h t (by simp)
    obtain ⟨tb, htb⟩ := Option.isSome_iff_exists.mp ht
    have hsel : selectAllLimit db t 5 = Except.ok (tb.rows.take 5) := by
      simp [selectAllLimit, htb]
    have hrows : rowsOf db t = tb.rows := by
      simp [rowsOf, htb]
    simp only [inspectTables, hsel, List.flatMap_cons,
      ih (fun x hx => h x (by simp [hx])), hrows]
    rfl

lemma normIds_falsy (v : JVal) (h : truthy v = false) : normIds v = [] := by
  unfold normIds
  rw [h]
  simp

lemma stream_length (d : List (String × Record)) :
    (stream d).length = totalProcessed d := by
  unfold stream totalProcessed
  rw [List.length_flatMap]
  congr 1
  simp [Function.comp, List.length_map]

lemma dupLoop_count (d : List (String × Record)) :
    (dupLoop d).duplicates + (dupLoop d).imdb_map.length = totalProcessed d := by
  rw [dupLoop_eq_runStream, runStream_count]
  simpa using stream_length d

/-- C1 counterexample: in the two-record mapping `dC1` the target MAL
ID 0 occurs in the `mal_id` field of both records, yet the lookup
returns the absent result rather than the first record, because the
value 0 is falsy and the guard `if mal_ids:` skips it. -/
theorem C1_counterexample :
    (∀ kv ∈ dC1, fieldContains 0 kv.2.mal_id = true) ∧ dC1.length = 2 ∧
      lookupMal 0 dC1 = Option.none := by
  refine ⟨by decide, by decide, by decide⟩

/-- C1 (amended): for every JSON mapping in which at least two records
match the target under the lookup's test (truthy `mal_id` equal to the
target or a list containing it), the lookup returns exactly the first
matching record in iteration order, and its result is the same as if
the scan had stopped at that record. -/
theorem C1_amended_first_match_wins (t : Int)
    (pre post : List (String × Record)) (k : String) (v : Record)
    (hpre : ∀ p ∈ pre, matchesMal t p.2.mal_id = false)
    (hv : matchesMal t v.mal_id = true)
    (_hsecond : ∃ q ∈ post, matchesMal t q.2.mal_id = true) :
    lookupMal t (pre ++ (k, v) :: post) = some (k, v) ∧
      lookupMal t (pre ++ (k, v) :: post) = lookupMal t (pre ++ [(k, v)]) := by
  refine ⟨lookupMal_first_match t pre post k v hpre hv, ?_⟩
  rw [lookupMal_first_match t pre post k v hpre hv,
    lookupMal_first_match t pre [] k v hpre hv]

/-- C1 witness: the amended theorem applied to a concrete mapping with
two matching records, a scalar match in second position and a list
match in third. -/
theorem C1_witness :
    lookupMal 38524
        ([("x", ⟨.jint 1, .jnull⟩)] ++ ("y", ⟨.jint 38524, .jnull⟩) ::
          [("z", ⟨.jlist [.jint 38524], .jnull⟩)]) =
      some ("y", ⟨.jint 38524, .jnull⟩) ∧
      lookupMal 38524
          ([("x", ⟨.jint 1, .jnull⟩)] ++ ("y", ⟨.jint 38524, .jnull⟩) ::
            [("z", ⟨.jlist [.jint 38524], .jnull⟩)]) =
        lookupMal 38524
          ([("x", ⟨.jint 1, .jnull⟩)] ++ [("y", ⟨.jint 38524, .jnull⟩)]) :=
  C1_amended_first_match_wins 38524 [("x", ⟨.jint 1, .jnull⟩)]
    [("z", ⟨.jlist [.jint 38524], .jnull⟩)] "y" ⟨.jint 38524, .jnull⟩
    (by decide) (by decide)
    ⟨("z", ⟨.jlist [.jint 38524], .jnull⟩), by decide, by decide⟩

/-- C2: for every target and every mapping, the lookup in which the
scalar branch first normalizes the scalar to a one-element sequence
and then tests membership returns exactly the same result as the
code's lookup, which compares the scalar with equality. -/
theorem C2_scalar_membership_equiv (t : Int) (data : List (String × Record)) :
    lookupMalNormalized t data = lookupMal t data := by
  induction data with
  | nil => rfl
  | cons kv rest ih =>
    obtain ⟨k, v⟩ := kv
    rw [lookupMal_cons, lookupMalNormalized_cons, ih]

/-- C3: after every iteration of the duplicate-detection loop (i.e.,
for every prefix of the mapping), the duplicate count plus the number
of entries of the first-seen map equals the total number of imdb
values processed so far. -/
theorem C3_duplicate_unique_total_invariant
    (data : List (String × Record)) (n : Nat) :
    (dupLoop (data.take n)).duplicates +
        (dupLoop (data.take n)).imdb_map.length =
      totalProcessed (data.take n) :=
  dupLoop_count (data.take n)

/-- C4 counterexample: in `dC4` no IMDb ID value occurs more than once
(the single record holds the two distinct values "a" and "b"), the
duplicate count is 0 as claimed, but the unique-value count is 2 while
only 1 entry has a non-null `imdb_id`: the claimed equality with the
number of non-null entries fails. -/
theorem C4_counterexample :
    (allVals dC4).Nodup ∧ (dupLoop dC4).duplicates = 0 ∧
      (dupLoop dC4).imdb_map.length = 2 ∧ countNonNullImdb dC4 = 1 ∧
      (dupLoop dC4).imdb_map.length ≠ countNonNullImdb dC4 := by
  refine ⟨by decide, by decide, by decide, by decide, by decide⟩

/-- C4 (amended): for every dataset in which no processed IMDb ID
value occurs more than once, the duplicate count is 0 and the
unique-value count equals the total number of imdb values processed
(one per value contributed by a truthy `imdb_id` field after
normalization). -/
theorem C4_amended_no_duplicates (data : List (String × Record))
    (h : (allVals data).Nodup) :
    (dupLoop data).duplicates = 0 ∧
      (dupLoop data).imdb_map.length = totalProcessed data := by
  have hd : (dupLoop data).duplicates = 0 := by
    rw [dupLoop_eq_runStream, runStream_dups]
    have h0 : prevOcc [] ((stream data).map Prod.snd) = 0 :=
      prevOcc_eq_zero _ [] h (fun v _ => rfl)
    simpa using h0
  refine ⟨hd, ?_⟩
  have := dupLoop_count data
  omega

/-- C4 witness: the amended theorem applied to a dataset with three
distinct values spread over a scalar field and a list field. -/
theorem C4_witness :
    (dupLoop [("k", ⟨.jnull, .jstr "a"⟩),
              ("m", ⟨.jnull, .jlist [.jstr "b", .jstr "c"]⟩)]).duplicates = 0 ∧
      (dupLoop [("k", ⟨.jnull, .jstr "a"⟩),
                ("m", ⟨.jnull, .jlist [.jstr "b", .jstr "c"]⟩)]).imdb_map.length =
        totalProcessed [("k", ⟨.jnull, .jstr "a"⟩),
                        ("m", ⟨.jnull, .jlist [.jstr "b", .jstr "c"]⟩)] :=
  C4_amended_no_duplicates _ (by decide)

/-- C5 counterexample: in `dC5` the value "a" occurs twice inside the
same record's list, so no occurrence lies in a record later than the
value's first-seen record, yet the loop counts one duplicate: the
claimed accounting of the duplicate count by later-record occurrences
fails. -/
theorem C5_counterexample :
    (dupLoop dC5).duplicates = 1 ∧ laterRecordOccs dC5 = 0 ∧
      (dupLoop dC5).duplicates ≠ laterRecordOccs dC5 := by
  refine ⟨by decide, by decide, by decide⟩

/-- C5 (amended): after the duplicate-detection loop, the first-seen
map sends every value to the key of the first record (in iteration
order) whose normalized `imdb_id` field contains it (and to the absent
result if there is none), and the duplicate count equals the number of
processed occurrences that already occurred earlier in the processed
stream, including repeats within a single record. -/
theorem C5_amended_first_seen_map (data : List (String × Record)) (v : JVal) :
    assocFind (dupLoop data).imdb_map v =
      (data.find? (fun kv => (normIds kv.2.imdb_id).contains v)).map Prod.fst ∧
      (dupLoop data).duplicates = prevOcc [] (allVals data) := by
  constructor
  · rw [dupLoop_eq_runStream, runStream_map]
    have h0 : firstSeen ((⟨[], 0⟩ : DupState).imdb_map.map Prod.fst)
        (stream data) = firstSeen [] (stream data) := rfl
    rw [show ((⟨[], 0⟩ : DupState).imdb_map ++
        firstSeen ((⟨[], 0⟩ : DupState).imdb_map.map Prod.fst) (stream data)) =
        firstSeen [] (stream data) from by simp [h0]]
    rw [firstSeen_find]
    rw [show (([] : List JVal).contains v) = false from rfl]
    simpa using stream_find?_eq data v
  · rw [dupLoop_eq_runStream, runStream_dups]
    simp [allVals]

/-- C6: when no record matches the target, the lookup completes the
scan without error, the result remains the absent value it was
initialized to, and the script still computes the following
duplicate-statistics phase. -/
theorem C6_not_found_no_error (t : Int) (data : List (String × Record))
    (h : ∀ kv ∈ data, matchesMal t kv.2.mal_id = false) :
    runAnalyze t data = (Option.none, dupLoop data) := by
  unfold runAnalyze
  rw [lookupMal_eq_none t data h]

/-- C6 witness: target 7 matches no record of a one-record mapping;
the run yields the absent lookup result together with the duplicate
statistics. -/
theorem C6_witness :
    runAnalyze 7 [("a", ⟨.jint 5, .jstr "tt1"⟩)] =
      (Option.none, dupLoop [("a", ⟨.jint 5, .jstr "tt1"⟩)]) :=
  C6_not_found_no_error 7 _ (by decide)

/-- C7: every SQL statement issued by any of the four
database-inspection scripts, whatever table names the catalog query
returns and whatever IMDb IDs the duplicate query returns, starts with
SELECT or PRAGMA: all statements are reads, none creates, mutates or
destroys an entity. -/
theorem C7_all_statements_read_only (tables dups : List String) :
    (inspect_db_stmts tables).all isReadOnlyStmt = true ∧
      inspect_aot_stmts.all isReadOnlyStmt = true ∧
      (inspect_duplicates_stmts dups).all isReadOnlyStmt = true ∧
      inspect_episodes_stmts.all isReadOnlyStmt = true := by
  refine ⟨?_, by decide, ?_, by decide⟩
  · rw [List.all_eq_true]
    intro x hx
    simp only [inspect_db_stmts, List.mem_cons] at hx
    rcases hx with h | h
    · subst h; decide
    · obtain ⟨t, _, hxt⟩ := List.mem_flatMap.mp h
      simp only [List.mem_cons, List.mem_singleton] at hxt
      rcases hxt with h1 | h1 | h1
      · subst h1; exact tableInfoSql_readonly t
      · subst h1; exact limit5Sql_readonly t
      · simp at h1
  · rw [List.all_eq_true]
    intro x hx
    simp only [inspect_duplicates_stmts, List.mem_cons] at hx
    rcases hx with h | h
    · subst h; decide
    · obtain ⟨v, _, hv⟩ := List.mem_map.mp h
      subst hv
      exact dupDetailSql_readonly v

/-- C8: on every database whose catalog entries of type table all have
a backing table, the schema-introspection script succeeds and prints
exactly the enumeration of those table names followed, for each table
in order, by its column definitions and its first 5 rows. -/
theorem C8_schema_introspection (db : Db)
    (h : ∀ t ∈ masterTableNames db, (db.findTable t).isSome = true) :
    inspect_db db = Except.ok (specDbOutput db) := by
  unfold inspect_db specDbOutput
  dsimp only
  rw [inspectTables_ok db _ h]
  rfl

/-- C8 witness: the introspection theorem applied to a concrete
database with one table of 6 rows and an extra index entry in the
catalog; only the table is enumerated and only 5 rows are printed. -/
theorem C8_witness : inspect_db dbW = Except.ok (specDbOutput dbW) :=
  C8_schema_introspection dbW (by decide)

/-- C9: a failed open or malformed JSON makes `analyze_mappings.py`
terminate with that error before either phase runs, and a missing
`anime` table makes `inspect_aot.py` terminate with the operational
error; no handler intercepts either, so no later output is
produced. -/
theorem C9_unhandled_errors_propagate (e : String) (t : Int) (db : Db)
    (p : List String → Bool) (h : db.findTable "anime" = Option.none) :
    analyze_mappings (Except.error e) t = Except.error e ∧
      inspect_aot db p = Except.error "no such table: anime" := by
  constructor
  · rfl
  · unfold inspect_aot selectWhere
    rw [h]
    rfl

/-- C9 witness: the propagation theorem at a concrete load error and a
concrete empty database. -/
theorem C9_witness :
    analyze_mappings (Except.error "No such file or directory") 38524 =
        Except.error "No such file or directory" ∧
      inspect_aot ⟨[], []⟩ (fun _ => true) =
        Except.error "no such table: anime" :=
  C9_unhandled_errors_propagate "No such file or directory" 38524 ⟨[], []⟩
    (fun _ => true) (by decide)

/-- C10: a record whose `imdb_id` is present but falsy contributes
nothing to the duplicate loop (removing it leaves the whole result,
both map and counts, unchanged), and a record whose `mal_id` is 0 or
the empty list is never returned by the lookup, for any target
including 0. -/
theorem C10_falsy_treated_as_absent (t : Int)
    (data pre post : List (String × Record)) (k : String) (r : Record) :
    (truthy r.imdb_id = false →
      dupLoop (pre ++ (k, r) :: post) = dupLoop (pre ++ post)) ∧
      ((r.mal_id = JVal.jint 0 ∨ r.mal_id = JVal.jlist []) →
        lookupMal t data ≠ some (k, r)) := by
  constructor
  · intro h
    rw [dupLoop_eq_runStream, dupLoop_eq_runStream]
    have hstream : stream (pre ++ (k, r) :: post) = stream (pre ++ post) := by
      simp only [stream, List.flatMap_append, List.flatMap_cons]
      rw [normIds_falsy r.imdb_id h]
      simp
    rw [hstream]
  · intro hm heq
    have hmatch := lookupMal_some_matches t data k r heq
    rcases hm with h0 | h0 <;> rw [h0] at hmatch <;>
      simp [matchesMal, truthy] at hmatch

/-- C10 witness: the record `rFalsy` (mal_id 0, imdb_id the empty
string) is invisible to the duplicate loop and unreachable by the
lookup even with target 0. -/
theorem C10_witness :
    dupLoop ([] ++ ("k", rFalsy) :: []) = dupLoop ([] ++ []) ∧
      lookupMal 0 [("k", rFalsy)] ≠ some ("k", rFalsy) :=
  ⟨(C10_falsy_treated_as_absent 0 [] [] [] "k" rFalsy).1 (by decide),
   (C10_falsy_treated_as_absent 0 [("k", rFalsy)] [] [] "k" rFalsy).2
     (Or.inl rfl)⟩
